import Mathlib

/-!
Shallow embedding of `gorm-auditable` (package `audited`, file `audit.go`):
an audit-log plugin that registers GORM lifecycle callbacks (after create,
after update, before delete) and, on each mutation, snapshots the affected
row and inserts one `AuditLog` row into the `audit_logs` table through a
fresh hook-free session.

Go dynamic values (`interface{}`-typed data, context values, JSON maps) are
modelled by the inductive `GoValue`; Go panics (nil-pointer dereference,
failed type assertion) are modelled by `Except GoPanic`; storage-layer
errors by `Except GoError`.  Maps are association lists.
-/

set_option autoImplicit false

namespace Audited

/-- A dynamically typed Go value, as stored in a `map[string]interface{}`
snapshot or under a context key. -/
inductive GoValue where
  | vstring (s : String)
  | vint (n : Int)
  | vbool (b : Bool)
  | vnull
  deriving DecidableEq, Repr

/-- A storage-layer (gorm) error. -/
inductive GoError where
  | recordNotFound
  | unsupportedData
  | auditWriteFailed
  deriving DecidableEq, Repr

/-- A Go runtime panic reachable from this code: dereferencing a nil
`*schema.Schema`, or a failed unchecked type assertion `x.(string)`. -/
inductive GoPanic where
  | nilPointer
  | typeAssertion
  deriving DecidableEq, Repr

/-- A generic field-name → value map (`map[string]interface{}`). -/
abbrev RowMap := List (String × GoValue)

/-- First value stored under `key` in an association-list map. -/
def lookupKey : RowMap → String → Option GoValue
  | [], _ => none
  | (k, v) :: rest, key => if k = key then some v else lookupKey rest key

/-- `const AuditTable = "audit_logs"`. -/
def AuditTable : String := "audit_logs"

/-- `var ContextKeyEmail = ContextKey("email")` (after `ContextKey.String`). -/
def ContextKeyEmail : String := "email"

/-- An ambient `context.Context`, modelled as its key → value map. -/
abbrev Ctx := List (String × GoValue)

/-- `ctx.Value(key)`: `nil` is modelled as `none`. -/
def ctxValue : Ctx → String → Option GoValue
  | [], _ => none
  | (k, v) :: rest, key => if k = key then some v else ctxValue rest key

/-- `getCurrentUser(ctx)`: returns the value under the email key, asserting
it to `string` (an unchecked assertion that panics on a non-string value);
returns the sentinel `"ctx-nonspecified"` when the key is absent. -/
def getCurrentUser (ctx : Ctx) : Except GoPanic String :=
  match ctxValue ctx ContextKeyEmail with
  | none => .ok "ctx-nonspecified"
  | some v =>
    match v with
    | .vstring s => .ok s
    | _ => .error .typeAssertion

/-- `getKeyFromData(key, data)`: missing key yields `""`; a present value is
cast by the unchecked assertion `objId.(string)`, which panics when the
stored value is not a string. -/
def getKeyFromData (key : String) (data : RowMap) : Except GoPanic String :=
  match lookupKey data key with
  | none => .ok ""
  | some objId =>
    match objId with
    | .vstring s => .ok s
    | _ => .error .typeAssertion

/-- The value held by one field of a Go struct, as seen by `reflect`: either
a string-kind field, or a field of some other kind (recording its type
name, which `reflect.Value.String` prints in its placeholder). -/
inductive FieldVal where
  | fstring (s : String)
  | fother (typeName : String)
  deriving DecidableEq, Repr

/-- The in-flight `db.Statement.ReflectValue`: a struct value of an entity
type (whose storage table, derived from the Go type by the collaborator, is
`typeTable`), a map value, or some other kind. -/
inductive ReflectValue where
  | rstruct (typeTable : String) (fields : List (String × FieldVal))
  | rmap (m : RowMap)
  | rother
  deriving DecidableEq, Repr

/-- `reflect.Value.FieldByName(name)`: the named field, or the zero
(invalid) `reflect.Value` when the struct has no such field. -/
def fieldByName : List (String × FieldVal) → String → Option FieldVal
  | [], _ => none
  | (n, v) :: rest, name => if n = name then some v else fieldByName rest name

/-- `reflect.Value.String()`: the underlying string for a string-kind value;
`"<invalid Value>"` for the zero `reflect.Value`; a `"<T Value>"`
placeholder for any other kind (it never panics). -/
def valueString : Option FieldVal → String
  | none => "<invalid Value>"
  | some (.fstring s) => s
  | some (.fother t) => "<" ++ t ++ " Value>"

/-- The `primaryKeyValue` computation of `getDataBeforeOperation`: for a
struct value, `value.FieldByName("Id").String()`; empty string otherwise. -/
def primaryKeyValueOf : ReflectValue → String
  | .rstruct _ fields => valueString (fieldByName fields "Id")
  | _ => ""

/-! ## JSON serialization (`encoding/json` on generic maps)

`json.Marshal` on a Go map emits the keys in sorted order; `prepareData`
marshals the snapshot map to the `datatypes.JSON` bytes stored in the
audit row. -/

/-- JSON rendering of one dynamic value. -/
def marshalValue : GoValue → String
  | .vstring s => "\"" ++ s ++ "\""
  | .vint n => toString n
  | .vbool b => toString b
  | .vnull => "null"

/-- Insert one entry into a key-sorted association list (sort helper for
Go's sorted-key map marshalling). -/
def insertSorted (p : String × GoValue) : RowMap → RowMap
  | [] => [p]
  | q :: qs => if p.1 < q.1 then p :: q :: qs else q :: insertSorted p qs

/-- Sort a map's entries by key, as `json.Marshal` does for Go maps. -/
def sortByKey : RowMap → RowMap
  | [] => []
  | p :: ps => insertSorted p (sortByKey ps)

/-- `json.Marshal` of a `map[string]interface{}`: a JSON object with
key-sorted members. -/
def marshalMap (m : RowMap) : String :=
  "\x7b" ++
    String.intercalate ","
      ((sortByKey m).map (fun p => "\"" ++ p.1 ++ "\":" ++ marshalValue p.2)) ++
  "\x7d"

/-- `prepareData(data)`: marshals the snapshot map into the JSON bytes of
the audit row's `Data` column (the marshal error is discarded). -/
def prepareData (data : RowMap) : String :=
  marshalMap data

/-! ## The audit row and the store

The storage engine itself is an external collaborator (spec §6); it is
modelled as a map from table name to row list for business tables, plus
the `audit_logs` table holding the typed `AuditLog` rows this plugin
inserts. -/

/-- The `AuditLog` model, restricted to the fields the hooks assign
(`Id` and `CreatedAt` are filled in by storage defaults at insert time). -/
structure AuditLog where
  tableName : String
  operationType : String
  objectId : String
  data : String
  userId : String
  deriving DecidableEq, Repr

/-- The persistent store: business tables (name → rows) and the audit
table's rows. -/
structure Store where
  tables : List (String × List RowMap)
  audit : List AuditLog
  deriving DecidableEq, Repr

/-- Rows of a named table (empty when the table is absent). -/
def lookupTable : List (String × List RowMap) → String → List RowMap
  | [], _ => []
  | (n, rs) :: rest, t => if n = t then rs else lookupTable rest t

/-- Rows of table `t` in store `s`. -/
def tableRows (s : Store) (t : String) : List RowMap :=
  lookupTable s.tables t

/-- Replace (or create) the row list of one table. -/
def setTable : List (String × List RowMap) → String → List RowMap →
    List (String × List RowMap)
  | [], t, rs => [(t, rs)]
  | (n, old) :: rest, t, rs =>
    if n = t then (t, rs) :: rest else (n, old) :: setTable rest t rs

/-- The `"id"` column value of a row, when it is a string. -/
def rowId (r : RowMap) : Option String :=
  match lookupKey r "id" with
  | some (.vstring s) => some s
  | _ => none

/-- `Where("id = ?", pk).First(...)`: the first row of the list whose `id`
column equals `pk`. -/
def findFirst (rows : List RowMap) (pk : String) : Option RowMap :=
  match rows with
  | [] => none
  | r :: rest => if rowId r = some pk then some r else findFirst rest pk

/-! ## The in-flight operation -/

/-- The statement's parsed schema metadata (`*schema.Schema`); only its
table name is consumed by this plugin. -/
structure Schema where
  table : String
  deriving DecidableEq, Repr

/-- The in-flight `db.Statement`: schema metadata (nil-able pointer),
the reflected destination value, and the ambient context. -/
structure Statement where
  schema : Option Schema
  reflectValue : ReflectValue
  context : Ctx
  deriving DecidableEq, Repr

/-- The `*gorm.DB` handle as the hooks see it: the statement, the
operation's error state, the dry-run flag, the store reached through the
connection, and the storage collaborator's verdict on the audit-table
insert performed by this invocation's fresh session. -/
structure DB where
  statement : Statement
  error : Option GoError
  dryRun : Bool
  store : Store
  auditWriteFails : Bool
  deriving DecidableEq, Repr

/-- Outcome of one hook invocation: the store after any audit write, the
triggering operation's error state afterwards, and the panic, if the
invocation panicked before reaching its persist step. -/
structure HookResult where
  store : Store
  dbError : Option GoError
  panicMsg : Option GoPanic
  deriving DecidableEq, Repr

/-- `getDataBeforeOperation(db)`: when the operation has not failed and is
not a dry run, extract the primary key from the reflected value, fetch the
current row through a fresh hook-free session (`First` on a new instance
of the entity's type — the collaborator derives the table from that type,
and errors on a non-struct destination), and convert the fetched entity to
a generic map by a `json.Marshal`/`json.Unmarshal` round trip; otherwise
return the empty map without error. -/
def getDataBeforeOperation (db : DB) : Except GoError RowMap :=
  if db.error = none ∧ db.dryRun = false then
    let primaryKeyValue := primaryKeyValueOf db.statement.reflectValue
    match db.statement.reflectValue with
    | .rstruct typeTable _ =>
      match findFirst (tableRows db.store typeTable) primaryKeyValue with
      | some row => .ok row
      | none => .error .recordNotFound
    | _ => .error .unsupportedData
  else
    .ok []

/-- The audit-table insert:
`db.Session(&gorm.Session{SkipHooks: true, NewDB: true}).Table(AuditTable).Create(auditLog)`.
The fresh session skips every registered hook, so the write reaches the
audit table directly; the collaborator's verdict is `db.auditWriteFails`. -/
def insertAudit (db : DB) (entry : AuditLog) : Except GoError Store :=
  if db.auditWriteFails then .error .auditWriteFailed
  else .ok { db.store with audit := db.store.audit ++ [entry] }

/-- Common body of the three hooks, parametrised by the operation-type
string (the three Go functions are textually identical apart from it):
guard `(Schema != nil && Schema.Table == AuditTable) || Error != nil`;
snapshot via `getDataBeforeOperation` (silent return on failure); object id
via `getKeyFromData` (possible assertion panic); build the `AuditLog`
literal, dereferencing `Statement.Schema.Table` (nil-pointer panic when the
schema is nil) and resolving the actor via `getCurrentUser` (possible
assertion panic); insert it through the hook-free session (silent return on
failure). No path assigns `db.Error`. -/
def hookBody (op : String) (db : DB) : HookResult :=
  if (match db.statement.schema with
      | some s => s.table == AuditTable
      | none => false) || db.error.isSome then
    ⟨db.store, db.error, none⟩
  else
    match getDataBeforeOperation db with
    | .error _ => ⟨db.store, db.error, none⟩
    | .ok recordMap =>
      match getKeyFromData "id" recordMap with
      | .error p => ⟨db.store, db.error, some p⟩
      | .ok objId =>
        match db.statement.schema with
        | none => ⟨db.store, db.error, some .nilPointer⟩
        | some sch =>
          match getCurrentUser db.statement.context with
          | .error p => ⟨db.store, db.error, some p⟩
          | .ok user =>
            match insertAudit db
                ⟨sch.table, op, objId, prepareData recordMap, user⟩ with
            | .error _ => ⟨db.store, db.error, none⟩
            | .ok store2 => ⟨store2, db.error, none⟩

/-- `Create(db *gorm.DB)`: the after-create audit hook. -/
def Create (db : DB) : HookResult := hookBody "CREATE" db

/-- `Update(db *gorm.DB)`: the after-update audit hook. -/
def Update (db : DB) : HookResult := hookBody "UPDATE" db

/-- `Delete(db *gorm.DB)`: the before-delete audit hook. -/
def Delete (db : DB) : HookResult := hookBody "DELETE" db

/-! ## Callback registration and the mutation lifecycle

The lifecycle engine that fires registered callbacks around the core
insert/update/delete is the storage collaborator, external to this
repository; it is modelled from the spec (§6): a callback registered
`After("gorm:create")` / `After("gorm:update")` runs after the core
operation completes, one registered `Before("gorm:delete")` runs before
the core delete executes. -/

/-- The three operation kinds of the mutation lifecycle. -/
inductive OpKind where
  | opCreate
  | opUpdate
  | opDelete
  deriving DecidableEq, Repr

/-- Whether a callback is registered before or after the core operation. -/
inductive Phase where
  | beforeOp
  | afterOp
  deriving DecidableEq, Repr

/-- One registered callback: its operation kind, phase, registered name
and the hook function itself. -/
structure Registration where
  op : OpKind
  phase : Phase
  name : String
  hook : DB → HookResult

/-- `RegisterCallbacks(db)`: the set of registrations it installs when all
three `Register` calls succeed — `Create` after `gorm:create`, `Update`
after `gorm:update`, `Delete` before `gorm:delete`. -/
def RegisterCallbacks : List Registration :=
  [⟨.opCreate, .afterOp, "custom_plugin:create_audit_log", Create⟩,
   ⟨.opUpdate, .afterOp, "custom_plugin:update_audit_log", Update⟩,
   ⟨.opDelete, .beforeOp, "custom_plugin:delete_audit_log", Delete⟩]

/-- Hooks registered for one operation kind and phase, in registration
order. -/
def hooksFor (regs : List Registration) (k : OpKind) (p : Phase) :
    List (DB → HookResult) :=
  (regs.filter (fun r => decide (r.op = k ∧ r.phase = p))).map Registration.hook

/-- Fire a list of hooks in order, threading the store and the operation's
error state; a panic aborts the remainder of the chain. -/
def runHooks : List (DB → HookResult) → DB → HookResult
  | [], db => ⟨db.store, db.error, none⟩
  | h :: hs, db =>
    let r := h db
    match r.panicMsg with
    | some _ => r
    | none => runHooks hs { db with store := r.store, error := r.dbError }

/-- Modelled from the spec: the collaborator's core insert — append the new
row to the target table. -/
def coreCreate (s : Store) (t : String) (row : RowMap) : Store :=
  { s with tables := setTable s.tables t (lookupTable s.tables t ++ [row]) }

/-- Modelled from the spec: the collaborator's core update — replace every
row of the target table whose `id` equals the entity's primary key by the
post-update row. -/
def coreUpdate (s : Store) (t : String) (pk : String) (newRow : RowMap) :
    Store :=
  { s with tables := setTable s.tables t ((lookupTable s.tables t).map (fun r => if rowId r = some pk then newRow else r)) }

/-- Modelled from the spec: the collaborator's core delete — remove every
row of the target table whose `id` equals the entity's primary key. -/
def coreDelete (s : Store) (t : String) (pk : String) : Store :=
  { s with tables := setTable s.tables t ((lookupTable s.tables t).filter (fun r => !(decide (rowId r = some pk)))) }

/-- The statement's target table, when schema metadata is present. -/
def targetTable (db : DB) : Option String :=
  db.statement.schema.map Schema.table

/-- Modelled from the spec: one mutation through the lifecycle engine with
callback set `regs`.  For create/update the core operation runs first and
the after-phase callbacks fire on the resulting state; for delete the
before-phase callbacks fire first and the core delete then runs (unless a
callback panicked).  `destRow` is the row the core insert/update writes. -/
def runMutation (regs : List Registration) (k : OpKind) (db : DB)
    (destRow : RowMap) : HookResult :=
  match k with
  | .opCreate =>
    let store1 :=
      match targetTable db with
      | some t => coreCreate db.store t destRow
      | none => db.store
    runHooks (hooksFor regs .opCreate .afterOp) { db with store := store1 }
  | .opUpdate =>
    let pk := primaryKeyValueOf db.statement.reflectValue
    let store1 :=
      match targetTable db with
      | some t => coreUpdate db.store t pk destRow
      | none => db.store
    runHooks (hooksFor regs .opUpdate .afterOp) { db with store := store1 }
  | .opDelete =>
    let r := runHooks (hooksFor regs .opDelete .beforeOp) db
    match r.panicMsg with
    | some _ => r
    | none =>
      let pk := primaryKeyValueOf db.statement.reflectValue
      match targetTable db with
      | some t => ⟨coreDelete r.store t pk, r.dbError, none⟩
      | none => r

/-! ## Concrete instances

Small concrete handles, used by the closed instantiations below (they
mirror the `widgets` scenarios of the spec's §8). -/

/-- A create against an empty `widgets` table by actor `alice@example.com`,
inserting the entity with string primary key `"42"`. -/
def widgetsDB : DB :=
  ⟨⟨some ⟨"widgets"⟩, .rstruct "widgets" [("Id", .fstring "42")],
    [("email", .vstring "alice@example.com")]⟩,
   none, false, ⟨[], []⟩, false⟩

/-- The persisted row `{id: "42", name: "a"}`. -/
def widgetRow : RowMap := [("id", .vstring "42"), ("name", .vstring "a")]

/-- The post-update row `{id: "42", name: "b"}`. -/
def widgetRowB : RowMap := [("id", .vstring "42"), ("name", .vstring "b")]

/-- The same handle with the row already persisted (for update/delete). -/
def widgetsDB1 : DB :=
  { widgetsDB with store := ⟨[("widgets", [widgetRow])], []⟩ }

/-- A handle with no schema metadata whose destination is a map value
(the snapshot fetch fails on it). -/
def nilSchemaDB : DB := ⟨⟨none, .rmap [], []⟩, none, false, ⟨[], []⟩, false⟩

/-- A nil-schema dry-run handle (the snapshot step trivially yields the
empty map, so the hook proceeds to the nil dereference). -/
def nilSchemaDryDB : DB := ⟨⟨none, .rmap [], []⟩, none, true, ⟨[], []⟩, false⟩

/-- A handle targeting the audit table itself. -/
def auditTargetDB : DB :=
  { widgetsDB with
      statement := { widgetsDB.statement with schema := some ⟨AuditTable⟩ } }

/-- A handle whose triggering operation already failed. -/
def failedOpDB : DB := { widgetsDB with error := some .recordNotFound }

/-- A handle whose audit-table insert is rejected by the store. -/
def auditFailDB : DB := { widgetsDB1 with auditWriteFails := true }

/-! ## Helper lemmas -/

theorem lookupTable_setTable_self (ts : List (String × List RowMap))
    (t : String) (rs : List RowMap) :
    lookupTable (setTable ts t rs) t = rs := by
  induction ts with
  | nil => simp [setTable, lookupTable]
  | cons p rest ih =>
    obtain ⟨n, old⟩ := p
    by_cases h : n = t
    · simp [setTable, lookupTable, h]
    · simp [setTable, lookupTable, h, ih]

theorem tableRows_coreCreate (s : Store) (t : String) (row : RowMap) :
    tableRows (coreCreate s t row) t = tableRows s t ++ [row] := by
  simp [tableRows, coreCreate, lookupTable_setTable_self]

theorem tableRows_coreUpdate (s : Store) (t pk : String) (newRow : RowMap) :
    tableRows (coreUpdate s t pk newRow) t =
      (tableRows s t).map (fun r => if rowId r = some pk then newRow else r) := by
  simp [tableRows, coreUpdate, lookupTable_setTable_self]

theorem findFirst_append_of_no_match (rows rest : List RowMap) (pk : String)
    (h : ∀ r ∈ rows, rowId r ≠ some pk) :
    findFirst (rows ++ rest) pk = findFirst rest pk := by
  induction rows with
  | nil => rfl
  | cons r rs ih =>
    simp only [List.cons_append, findFirst]
    rw [if_neg (h r (List.mem_cons_self r rs))]
    exact ih (fun x hx => h x (List.mem_cons_of_mem _ hx))

theorem findFirst_cons_match (r : RowMap) (rest : List RowMap) (pk : String)
    (h : rowId r = some pk) :
    findFirst (r :: rest) pk = some r := by
  simp [findFirst, h]

theorem map_update_of_no_match (rows : List RowMap) (pk : String)
    (newRow : RowMap) (h : ∀ r ∈ rows, rowId r ≠ some pk) :
    rows.map (fun r => if rowId r = some pk then newRow else r) = rows := by
  induction rows with
  | nil => rfl
  | cons r rs ih =>
    simp only [List.map_cons]
    rw [if_neg (h r (List.mem_cons_self r rs))]
    rw [ih (fun x hx => h x (List.mem_cons_of_mem _ hx))]

theorem filter_delete_of_no_match (rows : List RowMap) (pk : String)
    (h : ∀ r ∈ rows, rowId r ≠ some pk) :
    rows.filter (fun r => !(decide (rowId r = some pk))) = rows := by
  induction rows with
  | nil => rfl
  | cons r rs ih =>
    simp only [List.filter_cons]
    rw [decide_eq_false (h r (List.mem_cons_self r rs))]
    simp only [Bool.not_false, if_true]
    rw [ih (fun x hx => h x (List.mem_cons_of_mem _ hx))]

/-- The `id` column of a row whose `"id"` key holds the string `pk`. -/
theorem rowId_of_lookup (r : RowMap) (pk : String)
    (h : lookupKey r "id" = some (.vstring pk)) : rowId r = some pk := by
  simp [rowId, h]

/-- Success path of the common hook body: guard passes, the snapshot fetch
finds `row`, the object id and user resolve, and the audit insert succeeds;
the result appends exactly one `AuditLog` to the audit table and leaves the
business tables and the operation's error state untouched. -/
theorem hookBody_success (op T pk oid u : String) (db : DB)
    (fields : List (String × FieldVal)) (row : RowMap)
    (hschema : db.statement.schema = some ⟨T⟩)
    (hT : ¬ T = AuditTable)
    (herr : db.error = none)
    (hdry : db.dryRun = false)
    (hawf : db.auditWriteFails = false)
    (hrv : db.statement.reflectValue = .rstruct T fields)
    (hpk : valueString (fieldByName fields "Id") = pk)
    (hfind : findFirst (tableRows db.store T) pk = some row)
    (hkey : getKeyFromData "id" row = .ok oid)
    (huser : getCurrentUser db.statement.context = .ok u) :
    hookBody op db =
      ⟨{ db.store with
           audit := db.store.audit ++ [⟨T, op, oid, prepareData row, u⟩] },
       none, none⟩ := by
  have hg : getDataBeforeOperation db = .ok row := by
    unfold getDataBeforeOperation
    rw [herr, hdry, hrv]
    simp [primaryKeyValueOf, hpk, hfind]
  unfold hookBody
  rw [hschema, herr, hg]
  simp [hT, hkey, huser, insertAudit, hawf, herr]

/-- A successful audit insert appends exactly the one new entry. -/
theorem insertAudit_ok (db : DB) (e : AuditLog) (s : Store)
    (h : insertAudit db e = .ok s) :
    s = { db.store with audit := db.store.audit ++ [e] } := by
  unfold insertAudit at h
  split at h
  · cases h
  · cases h
    rfl

/-- Guard, first disjunct: an invocation whose statement's schema names the
audit table returns at once, leaving everything unchanged. -/
theorem hookBody_guard_auditTable (op : String) (db : DB)
    (h : db.statement.schema = some ⟨AuditTable⟩) :
    hookBody op db = ⟨db.store, db.error, none⟩ := by
  unfold hookBody
  rw [h]
  simp

/-- Guard, second disjunct: an invocation whose operation already carries
an error returns at once, leaving everything unchanged. -/
theorem hookBody_guard_error (op : String) (db : DB) (h : db.error ≠ none) :
    hookBody op db = ⟨db.store, db.error, none⟩ := by
  unfold hookBody
  rw [Option.isSome_iff_ne_none.mpr h]
  simp

/-- Every exit path of a hook leaves the triggering operation's error state
exactly as it found it: no statement of the body assigns `db.Error`. -/
theorem hookBody_dbError (op : String) (db : DB) :
    (hookBody op db).dbError = db.error := by
  unfold hookBody
  split
  · rfl
  · split
    · rfl
    · split
      · rfl
      · split
        · rfl
        · split
          · rfl
          · split <;> rfl

/-- A hook appends at most one row to the audit table (the audit insert is
performed with hooks skipped, so no nested invocation can add more). -/
theorem hookBody_audit_growth (op : String) (db : DB) :
    (hookBody op db).store.audit = db.store.audit ∨
      ∃ e, (hookBody op db).store.audit = db.store.audit ++ [e] := by
  unfold hookBody
  split
  · exact Or.inl rfl
  · split
    · exact Or.inl rfl
    · split
      · exact Or.inl rfl
      · split
        · exact Or.inl rfl
        · split
          · exact Or.inl rfl
          · split
            · exact Or.inl rfl
            · rename_i store2 hins
              rw [insertAudit_ok _ _ _ hins]
              exact Or.inr ⟨_, rfl⟩

/-- Capture failure: when the snapshot read errors, the hook returns with
nothing written, no panic, and the operation's error state untouched. -/
theorem hookBody_capture_fail (op : String) (db : DB) (e : GoError)
    (h : getDataBeforeOperation db = .error e) :
    hookBody op db = ⟨db.store, db.error, none⟩ := by
  unfold hookBody
  split
  · rfl
  · rw [h]

/-- Persist failure: when the audit-table insert is rejected, every path of
the hook leaves the store and the operation's error state untouched. -/
theorem hookBody_persist_fail (op : String) (db : DB)
    (h : db.auditWriteFails = true) :
    (hookBody op db).store = db.store ∧ (hookBody op db).dbError = db.error := by
  unfold hookBody
  split
  · exact ⟨rfl, rfl⟩
  · split
    · exact ⟨rfl, rfl⟩
    · split
      · exact ⟨rfl, rfl⟩
      · split
        · exact ⟨rfl, rfl⟩
        · split
          · exact ⟨rfl, rfl⟩
          · split
            · exact ⟨rfl, rfl⟩
            · rename_i store2 hins
              unfold insertAudit at hins
              rw [h] at hins
              cases hins

/-- Nil schema metadata: the guard does not short-circuit; the hook never
writes an audit entry, and whenever the snapshot read succeeds it panics
(on the object-id assertion or on the nil schema dereference) before
reaching its persist step. -/
theorem hookBody_nil_schema (op : String) (db : DB)
    (hschema : db.statement.schema = none) (herr : db.error = none) :
    (hookBody op db).store = db.store ∧
      (∀ m, getDataBeforeOperation db = .ok m →
        (hookBody op db).panicMsg ≠ none) := by
  constructor
  · unfold hookBody
    rw [hschema, herr]
    cases hgd : getDataBeforeOperation db with
    | error e => simp
    | ok m =>
      cases hk : getKeyFromData "id" m with
      | error p => simp [hk]
      | ok oid => simp [hk]
  · intro m hm
    unfold hookBody
    rw [hschema, herr, hm]
    cases hk : getKeyFromData "id" m with
    | error p => simp [hk]
    | ok oid => simp [hk]

/-! ## Claims -/

/-- C3: a hook invocation whose statement targets the audit table itself,
or whose operation already carries a storage error, returns immediately
with the store and error state untouched; and every hook invocation grows
the audit table by at most one entry — the audit write runs with hooks
skipped, so it never triggers a nested entry (recursion depth 0). -/
theorem c3_guard_no_recursion (db : DB) :
    ((db.statement.schema = some ⟨AuditTable⟩ ∨ db.error ≠ none) →
      Create db = ⟨db.store, db.error, none⟩ ∧
      Update db = ⟨db.store, db.error, none⟩ ∧
      Delete db = ⟨db.store, db.error, none⟩) ∧
    ((Create db).store.audit = db.store.audit ∨
      ∃ e, (Create db).store.audit = db.store.audit ++ [e]) ∧
    ((Update db).store.audit = db.store.audit ∨
      ∃ e, (Update db).store.audit = db.store.audit ++ [e]) ∧
    ((Delete db).store.audit = db.store.audit ∨
      ∃ e, (Delete db).store.audit = db.store.audit ++ [e]) := by
  refine ⟨?_, hookBody_audit_growth "CREATE" db,
    hookBody_audit_growth "UPDATE" db, hookBody_audit_growth "DELETE" db⟩
  rintro (h | h)
  · exact ⟨hookBody_guard_auditTable _ _ h, hookBody_guard_auditTable _ _ h,
      hookBody_guard_auditTable _ _ h⟩
  · exact ⟨hookBody_guard_error _ _ h, hookBody_guard_error _ _ h,
      hookBody_guard_error _ _ h⟩

/-- C3 witness: concrete guard short-circuits, on an audit-table target and
on an already-failed operation. -/
theorem c3_witness :
    Create auditTargetDB = ⟨auditTargetDB.store, auditTargetDB.error, none⟩ ∧
    Update failedOpDB = ⟨failedOpDB.store, failedOpDB.error, none⟩ :=
  ⟨((c3_guard_no_recursion auditTargetDB).1 (Or.inl rfl)).1,
   ((c3_guard_no_recursion failedOpDB).1 (Or.inr (by decide))).2.1⟩

/-- C4 counterexample: a snapshot map holding a non-string value under
`"id"` makes the extraction panic on the unchecked type assertion — it
does not return the empty string. -/
theorem c4_counterexample :
    getKeyFromData "id" [("id", GoValue.vint 7)] = .error .typeAssertion ∧
      getKeyFromData "id" [("id", GoValue.vint 7)] ≠ .ok "" :=
  ⟨rfl, fun h => nomatch h⟩

/-- C4 (amended): extracting the object id returns the stored string when
the key is present and string-typed, and the empty string when the key is
absent; when the key is present with a non-string value the unchecked
assertion `objId.(string)` panics. -/
theorem c4_getKeyFromData (key : String) (data : RowMap) :
    (lookupKey data key = none → getKeyFromData key data = .ok "") ∧
    (∀ s, lookupKey data key = some (.vstring s) →
      getKeyFromData key data = .ok s) ∧
    (∀ v, lookupKey data key = some v → (∀ s, v ≠ .vstring s) →
      getKeyFromData key data = .error .typeAssertion) := by
  refine ⟨?_, ?_, ?_⟩
  · intro h
    simp [getKeyFromData, h]
  · intro s h
    simp [getKeyFromData, h]
  · intro v h hv
    unfold getKeyFromData
    rw [h]
    cases v with
    | vstring s => exact absurd rfl (hv s)
    | vint n => rfl
    | vbool b => rfl
    | vnull => rfl

/-- C4 witness: concrete present-string and absent-key extractions. -/
theorem c4_witness :
    getKeyFromData "id" [("id", GoValue.vstring "42")] = .ok "42" ∧
    getKeyFromData "name" [("id", GoValue.vstring "42")] = .ok "" :=
  ⟨(c4_getKeyFromData "id" [("id", GoValue.vstring "42")]).2.1 "42" rfl,
   (c4_getKeyFromData "name" [("id", GoValue.vstring "42")]).1 rfl⟩

/-- C5: when the snapshot read fails, each hook aborts the invocation:
nothing is written, no panic or error is surfaced, and the triggering
operation's error state is exactly what it was. -/
theorem c5_capture_failure (db : DB) (e : GoError)
    (h : getDataBeforeOperation db = .error e) :
    Create db = ⟨db.store, db.error, none⟩ ∧
    Update db = ⟨db.store, db.error, none⟩ ∧
    Delete db = ⟨db.store, db.error, none⟩ :=
  ⟨hookBody_capture_fail "CREATE" db e h, hookBody_capture_fail "UPDATE" db e h,
   hookBody_capture_fail "DELETE" db e h⟩

/-- C5 witness: the fetch against an empty store fails with
record-not-found and the hook returns with nothing changed. -/
theorem c5_witness :
    getDataBeforeOperation widgetsDB = .error .recordNotFound ∧
      Create widgetsDB = ⟨widgetsDB.store, widgetsDB.error, none⟩ :=
  ⟨rfl, (c5_capture_failure widgetsDB .recordNotFound rfl).1⟩

/-- C6: when the audit-table insert fails, each hook leaves the store
unchanged (no entry) and never touches the triggering operation's error
state — the audit write runs in a fresh session, so the original mutation
keeps its original outcome. -/
theorem c6_persist_failure (db : DB) (h : db.auditWriteFails = true) :
    ((Create db).store = db.store ∧ (Create db).dbError = db.error) ∧
    ((Update db).store = db.store ∧ (Update db).dbError = db.error) ∧
    ((Delete db).store = db.store ∧ (Delete db).dbError = db.error) :=
  ⟨hookBody_persist_fail "CREATE" db h, hookBody_persist_fail "UPDATE" db h,
   hookBody_persist_fail "DELETE" db h⟩

/-- C6 witness: a concrete rejected audit insert leaves everything as it
was. -/
theorem c6_witness :
    (Create auditFailDB).store = auditFailDB.store ∧
      (Create auditFailDB).dbError = auditFailDB.error :=
  (c6_persist_failure auditFailDB rfl).1

/-- C7: identity resolution returns the string stored under the `"email"`
key when it is present (string-typed), and the sentinel
`"ctx-nonspecified"` when the key is absent; absence never raises. -/
theorem c7_getCurrentUser (ctx : Ctx) :
    (∀ s, ctxValue ctx ContextKeyEmail = some (.vstring s) →
      getCurrentUser ctx = .ok s) ∧
    (ctxValue ctx ContextKeyEmail = none →
      getCurrentUser ctx = .ok "ctx-nonspecified") := by
  constructor
  · intro s h
    simp [getCurrentUser, h]
  · intro h
    simp [getCurrentUser, h]

/-- C7 witness: concrete present and absent identities. -/
theorem c7_witness :
    getCurrentUser [("email", GoValue.vstring "bob@example.com")] =
        .ok "bob@example.com" ∧
      getCurrentUser [] = .ok "ctx-nonspecified" :=
  ⟨(c7_getCurrentUser [("email", GoValue.vstring "bob@example.com")]).1
      "bob@example.com" rfl,
   (c7_getCurrentUser []).2 rfl⟩

/-- C8 counterexample: a struct value lacking an `Id` field yields the
`reflect` placeholder `"<invalid Value>"` as its primary-key lookup value,
not the empty string the claim promises. -/
theorem c8_counterexample :
    primaryKeyValueOf (.rstruct "widgets" [("Name", .fstring "x")]) =
        "<invalid Value>" ∧
      primaryKeyValueOf (.rstruct "widgets" [("Name", .fstring "x")]) ≠ "" :=
  ⟨rfl, by decide⟩

/-- C8 (amended): the snapshot reader's primary-key value is the `Id`
field's string when the value is a struct with a string-kind `Id` field;
the empty string for every non-struct value; and a `reflect` placeholder —
`"<invalid Value>"` or `"<T Value>"` — for a struct lacking an `Id` field
or holding one of non-string kind (never a panic). -/
theorem c8_primaryKeyValue :
    (∀ (t : String) (fields : List (String × FieldVal)) (s : String),
      fieldByName fields "Id" = some (.fstring s) →
        primaryKeyValueOf (.rstruct t fields) = s) ∧
    (∀ (t : String) (fields : List (String × FieldVal)),
      fieldByName fields "Id" = none →
        primaryKeyValueOf (.rstruct t fields) = "<invalid Value>") ∧
    (∀ (t : String) (fields : List (String × FieldVal)) (ty : String),
      fieldByName fields "Id" = some (.fother ty) →
        primaryKeyValueOf (.rstruct t fields) = "<" ++ ty ++ " Value>") ∧
    (∀ m : RowMap, primaryKeyValueOf (.rmap m) = "") ∧
    primaryKeyValueOf .rother = "" := by
  refine ⟨?_, ?_, ?_, fun m => rfl, rfl⟩
  · intro t fields s h
    simp [primaryKeyValueOf, h, valueString]
  · intro t fields h
    simp [primaryKeyValueOf, h, valueString]
  · intro t fields ty h
    simp [primaryKeyValueOf, h, valueString]

/-- C8 witness: concrete string-`Id`, non-string-`Id` and non-struct
primary-key extractions. -/
theorem c8_witness :
    primaryKeyValueOf (.rstruct "widgets" [("Id", .fstring "42")]) = "42" ∧
      primaryKeyValueOf (.rstruct "widgets" [("Id", .fother "uuid.UUID")]) =
        "<uuid.UUID Value>" :=
  ⟨c8_primaryKeyValue.1 "widgets" [("Id", .fstring "42")] "42" rfl,
   c8_primaryKeyValue.2.2.1 "widgets" [("Id", .fother "uuid.UUID")]
     "uuid.UUID" rfl⟩

/-- C9 counterexample: a hook invocation with nil schema metadata and no
prior error whose snapshot read fails returns normally — no panic and no
entry — so a nil-schema invocation does not always reach the nil schema
dereference, and a non-panicking invocation does not require schema
metadata. -/
theorem c9_counterexample :
    nilSchemaDB.statement.schema = none ∧ nilSchemaDB.error = none ∧
      Create nilSchemaDB = ⟨nilSchemaDB.store, none, none⟩ :=
  ⟨rfl, rfl, rfl⟩

/-- C9 (amended): with nil schema metadata and no prior error the guard
does not short-circuit; such an invocation never writes an audit entry,
and whenever the snapshot read succeeds it panics (on the object-id
assertion or on the nil schema dereference) before reaching its persist
step; only a failing snapshot read lets it return without panicking. -/
theorem c9_nil_schema (db : DB) (hschema : db.statement.schema = none)
    (herr : db.error = none) :
    ((Create db).store = db.store ∧ (Update db).store = db.store ∧
      (Delete db).store = db.store) ∧
    (∀ m, getDataBeforeOperation db = .ok m →
      (Create db).panicMsg ≠ none ∧ (Update db).panicMsg ≠ none ∧
        (Delete db).panicMsg ≠ none) :=
  ⟨⟨(hookBody_nil_schema "CREATE" db hschema herr).1,
    (hookBody_nil_schema "UPDATE" db hschema herr).1,
    (hookBody_nil_schema "DELETE" db hschema herr).1⟩,
   fun m hm =>
    ⟨(hookBody_nil_schema "CREATE" db hschema herr).2 m hm,
     (hookBody_nil_schema "UPDATE" db hschema herr).2 m hm,
     (hookBody_nil_schema "DELETE" db hschema herr).2 m hm⟩⟩

/-- C9 witness: a concrete nil-schema dry run (snapshot trivially succeeds
with the empty map) panics on the nil schema dereference. -/
theorem c9_witness : (Create nilSchemaDryDB).panicMsg ≠ none :=
  ((c9_nil_schema nilSchemaDryDB rfl rfl).2 [] rfl).1

/-- C10: a present non-string value under the `"email"` key makes identity
resolution panic via the unchecked type assertion; it returns normally
exactly when the key is absent or holds a string. -/
theorem c10_getCurrentUser_panic :
    (∀ (ctx : Ctx) (v : GoValue), ctxValue ctx ContextKeyEmail = some v →
      (∀ s, v ≠ .vstring s) → getCurrentUser ctx = .error .typeAssertion) ∧
    (∀ ctx : Ctx, (∃ s, getCurrentUser ctx = .ok s) ↔
      (ctxValue ctx ContextKeyEmail = none ∨
        ∃ s, ctxValue ctx ContextKeyEmail = some (.vstring s))) := by
  constructor
  · intro ctx v h hv
    unfold getCurrentUser
    rw [h]
    cases v with
    | vstring s => exact absurd rfl (hv s)
    | vint n => rfl
    | vbool b => rfl
    | vnull => rfl
  · intro ctx
    constructor
    · rintro ⟨s, hs⟩
      unfold getCurrentUser at hs
      cases hv : ctxValue ctx ContextKeyEmail with
      | none => exact Or.inl rfl
      | some v =>
        rw [hv] at hs
        cases v with
        | vstring t => exact Or.inr ⟨t, rfl⟩
        | vint n => simp at hs
        | vbool b => simp at hs
        | vnull => simp at hs
    · rintro (h | ⟨s, hs⟩)
      · exact ⟨"ctx-nonspecified", by simp [getCurrentUser, h]⟩
      · exact ⟨s, by simp [getCurrentUser, hs]⟩

/-- C10 witness: a concrete integer under the email key panics the
resolver. -/
theorem c10_witness :
    getCurrentUser [("email", GoValue.vint 3)] = .error .typeAssertion :=
  c10_getCurrentUser_panic.1 [("email", GoValue.vint 3)] (GoValue.vint 3) rfl
    (fun _ h => GoValue.noConfusion h)

/-- C1: with the plugin's registrations, a successful CREATE or UPDATE on a
non-audit table — schema present, no prior error, not a dry run, audit
insert accepted, actor resolvable, the written row carrying the entity's
string primary key under `"id"`, and that key unique in the table —
produces exactly one `AuditLog`: the audit table grows by the single entry
whose `operationType` is `"CREATE"` resp. `"UPDATE"` and whose `data` is
the serialization of the row exactly as the store persists it after the
mutation, the hook having fired after the core insert/update. -/
theorem c1_create_update_after_mutation :
    (∀ (db : DB) (T pk u : String) (fields : List (String × FieldVal))
        (destRow : RowMap),
      db.statement.schema = some ⟨T⟩ → ¬ T = AuditTable →
      db.error = none → db.dryRun = false → db.auditWriteFails = false →
      db.statement.reflectValue = .rstruct T fields →
      valueString (fieldByName fields "Id") = pk →
      lookupKey destRow "id" = some (.vstring pk) →
      getCurrentUser db.statement.context = .ok u →
      (∀ r ∈ tableRows db.store T, rowId r ≠ some pk) →
      runMutation RegisterCallbacks .opCreate db destRow =
        ⟨⟨setTable db.store.tables T (tableRows db.store T ++ [destRow]),
          db.store.audit ++ [⟨T, "CREATE", pk, prepareData destRow, u⟩]⟩,
         none, none⟩) ∧
    (∀ (db : DB) (T pk u : String) (fields : List (String × FieldVal))
        (destRow oldRow : RowMap) (rows1 rows2 : List RowMap),
      db.statement.schema = some ⟨T⟩ → ¬ T = AuditTable →
      db.error = none → db.dryRun = false → db.auditWriteFails = false →
      db.statement.reflectValue = .rstruct T fields →
      valueString (fieldByName fields "Id") = pk →
      lookupKey destRow "id" = some (.vstring pk) →
      getCurrentUser db.statement.context = .ok u →
      tableRows db.store T = rows1 ++ oldRow :: rows2 →
      (∀ r ∈ rows1, rowId r ≠ some pk) → (∀ r ∈ rows2, rowId r ≠ some pk) →
      rowId oldRow = some pk →
      runMutation RegisterCallbacks .opUpdate db destRow =
        ⟨⟨setTable db.store.tables T (rows1 ++ destRow :: rows2),
          db.store.audit ++ [⟨T, "UPDATE", pk, prepareData destRow, u⟩]⟩,
         none, none⟩) := by
  constructor
  · intro db T pk u fields destRow hschema hT herr hdry hawf hrv hpk hid
      huser hnom
    have htt : targetTable db = some T := by simp [targetTable, hschema]
    have hrid : rowId destRow = some pk := rowId_of_lookup _ _ hid
    have hkey : getKeyFromData "id" destRow = .ok pk := by
      simp [getKeyFromData, hid]
    have hfind :
        findFirst (tableRows (coreCreate db.store T destRow) T) pk =
          some destRow := by
      rw [tableRows_coreCreate, findFirst_append_of_no_match _ _ _ hnom,
        findFirst_cons_match _ _ _ hrid]
    have hc : Create { db with store := coreCreate db.store T destRow } =
        ⟨⟨setTable db.store.tables T (tableRows db.store T ++ [destRow]),
          db.store.audit ++ [⟨T, "CREATE", pk, prepareData destRow, u⟩]⟩,
         none, none⟩ :=
      hookBody_success "CREATE" T pk pk u
        { db with store := coreCreate db.store T destRow } fields destRow
        hschema hT herr hdry hawf hrv hpk hfind hkey huser
    have step1 : runMutation RegisterCallbacks .opCreate db destRow =
        runHooks [Create] { db with store := coreCreate db.store T destRow } := by
      show runHooks (hooksFor RegisterCallbacks .opCreate .afterOp)
          { db with store :=
              match targetTable db with
              | some t => coreCreate db.store t destRow
              | none => db.store } = _
      rw [htt]
      rfl
    rw [step1]
    simp only [runHooks, hc]
  · intro db T pk u fields destRow oldRow rows1 rows2 hschema hT herr hdry
      hawf hrv hpk hid huser hrows h1 h2 hold
    have htt : targetTable db = some T := by simp [targetTable, hschema]
    have hpk' : primaryKeyValueOf db.statement.reflectValue = pk := by
      rw [hrv]
      simpa [primaryKeyValueOf] using hpk
    have hrid : rowId destRow = some pk := rowId_of_lookup _ _ hid
    have hkey : getKeyFromData "id" destRow = .ok pk := by
      simp [getKeyFromData, hid]
    have hmap : (tableRows db.store T).map
          (fun r => if rowId r = some pk then destRow else r) =
        rows1 ++ destRow :: rows2 := by
      rw [hrows, List.map_append, List.map_cons,
        map_update_of_no_match _ _ _ h1, map_update_of_no_match _ _ _ h2,
        if_pos hold]
    have hfind :
        findFirst (tableRows (coreUpdate db.store T pk destRow) T) pk =
          some destRow := by
      rw [tableRows_coreUpdate, hmap,
        findFirst_append_of_no_match _ _ _ h1,
        findFirst_cons_match _ _ _ hrid]
    have hc : Update { db with store := coreUpdate db.store T pk destRow } =
        ⟨⟨setTable db.store.tables T
            ((tableRows db.store T).map
              (fun r => if rowId r = some pk then destRow else r)),
          db.store.audit ++ [⟨T, "UPDATE", pk, prepareData destRow, u⟩]⟩,
         none, none⟩ :=
      hookBody_success "UPDATE" T pk pk u
        { db with store := coreUpdate db.store T pk destRow } fields destRow
        hschema hT herr hdry hawf hrv hpk hfind hkey huser
    have step1 : runMutation RegisterCallbacks .opUpdate db destRow =
        runHooks [Update]
          { db with store := coreUpdate db.store T pk destRow } := by
      show runHooks (hooksFor RegisterCallbacks .opUpdate .afterOp)
          { db with store :=
              match targetTable db with
              | some t =>
                coreUpdate db.store t
                  (primaryKeyValueOf db.statement.reflectValue) destRow
              | none => db.store } = _
      rw [htt, hpk']
      rfl
    rw [step1]
    simp only [runHooks, hc]
    rw [hmap]

/-- C1 witness: the spec's §8 scenarios — creating `{id: "42", name: "a"}`
in `widgets` and updating it to `{id: "42", name: "b"}` each append exactly
one matching entry. -/
theorem c1_witness :
    runMutation RegisterCallbacks .opCreate widgetsDB widgetRow =
      ⟨⟨setTable widgetsDB.store.tables "widgets"
          (tableRows widgetsDB.store "widgets" ++ [widgetRow]),
        widgetsDB.store.audit ++
          [⟨"widgets", "CREATE", "42", prepareData widgetRow,
            "alice@example.com"⟩]⟩, none, none⟩ ∧
    runMutation RegisterCallbacks .opUpdate widgetsDB1 widgetRowB =
      ⟨⟨setTable widgetsDB1.store.tables "widgets" ([] ++ widgetRowB :: []),
        widgetsDB1.store.audit ++
          [⟨"widgets", "UPDATE", "42", prepareData widgetRowB,
            "alice@example.com"⟩]⟩, none, none⟩ :=
  ⟨c1_create_update_after_mutation.1 widgetsDB "widgets" "42"
      "alice@example.com" [("Id", .fstring "42")] widgetRow rfl (by decide)
      rfl rfl rfl rfl rfl rfl rfl (by decide),
   c1_create_update_after_mutation.2 widgetsDB1 "widgets" "42"
      "alice@example.com" [("Id", .fstring "42")] widgetRowB widgetRow [] []
      rfl (by decide) rfl rfl rfl rfl rfl rfl rfl rfl (by decide) (by decide)
      rfl⟩

/-- C2: with the plugin's registrations, a successful DELETE on a non-audit
table (same side conditions, the row present with a unique string `"id"`)
appends exactly one `AuditLog` whose `operationType` is `"DELETE"` and
whose `data` is the serialization of the row as it stood immediately before
removal — the hook fires before the core delete, which then removes the
row. -/
theorem c2_delete_before_removal (db : DB) (T pk u : String)
    (fields : List (String × FieldVal)) (destRow oldRow : RowMap)
    (rows1 rows2 : List RowMap)
    (hschema : db.statement.schema = some ⟨T⟩) (hT : ¬ T = AuditTable)
    (herr : db.error = none) (hdry : db.dryRun = false)
    (hawf : db.auditWriteFails = false)
    (hrv : db.statement.reflectValue = .rstruct T fields)
    (hpk : valueString (fieldByName fields "Id") = pk)
    (huser : getCurrentUser db.statement.context = .ok u)
    (hrows : tableRows db.store T = rows1 ++ oldRow :: rows2)
    (h1 : ∀ r ∈ rows1, rowId r ≠ some pk)
    (h2 : ∀ r ∈ rows2, rowId r ≠ some pk)
    (hid : lookupKey oldRow "id" = some (.vstring pk)) :
    runMutation RegisterCallbacks .opDelete db destRow =
      ⟨⟨setTable db.store.tables T (rows1 ++ rows2),
        db.store.audit ++ [⟨T, "DELETE", pk, prepareData oldRow, u⟩]⟩,
       none, none⟩ := by
  have htt : targetTable db = some T := by simp [targetTable, hschema]
  have hpk' : primaryKeyValueOf db.statement.reflectValue = pk := by
    rw [hrv]
    simpa [primaryKeyValueOf] using hpk
  have hrid : rowId oldRow = some pk := rowId_of_lookup _ _ hid
  have hkey : getKeyFromData "id" oldRow = .ok pk := by
    simp [getKeyFromData, hid]
  have hfind : findFirst (tableRows db.store T) pk = some oldRow := by
    rw [hrows, findFirst_append_of_no_match _ _ _ h1,
      findFirst_cons_match _ _ _ hrid]
  have hc : Delete db =
      ⟨{ db.store with
           audit := db.store.audit ++
             [⟨T, "DELETE", pk, prepareData oldRow, u⟩] },
       none, none⟩ :=
    hookBody_success "DELETE" T pk pk u db fields oldRow
      hschema hT herr hdry hawf hrv hpk hfind hkey huser
  have hfil : (tableRows db.store T).filter
        (fun r => !(decide (rowId r = some pk))) = rows1 ++ rows2 := by
    rw [hrows, List.filter_append, List.filter_cons]
    rw [filter_delete_of_no_match _ _ h1, filter_delete_of_no_match _ _ h2]
    rw [decide_eq_true hrid]
    simp
  show (match (runHooks (hooksFor RegisterCallbacks .opDelete .beforeOp)
                db).panicMsg with
        | some _ => runHooks (hooksFor RegisterCallbacks .opDelete .beforeOp) db
        | none =>
          match targetTable db with
          | some t =>
            (⟨coreDelete
                (runHooks (hooksFor RegisterCallbacks .opDelete .beforeOp)
                  db).store t (primaryKeyValueOf db.statement.reflectValue),
              (runHooks (hooksFor RegisterCallbacks .opDelete .beforeOp)
                db).dbError, none⟩ : HookResult)
          | none =>
            runHooks (hooksFor RegisterCallbacks .opDelete .beforeOp) db) = _
  have hr : runHooks (hooksFor RegisterCallbacks .opDelete .beforeOp) db =
      ⟨{ db.store with
           audit := db.store.audit ++
             [⟨T, "DELETE", pk, prepareData oldRow, u⟩] },
       none, none⟩ := by
    simp only [runHooks, hc]
  rw [hr, htt, hpk']
  show (⟨coreDelete
          { db.store with
              audit := db.store.audit ++
                [⟨T, "DELETE", pk, prepareData oldRow, u⟩] } T pk,
        none, none⟩ : HookResult) = _
  unfold coreDelete
  simp only [tableRows] at hfil
  simp [hfil]

/-- C2 witness: the spec's §8 scenario — deleting `{id: "42", name: "a"}`
from `widgets` appends exactly one DELETE entry holding the pre-deletion
row and removes the row. -/
theorem c2_witness :
    runMutation RegisterCallbacks .opDelete widgetsDB1 [] =
      ⟨⟨setTable widgetsDB1.store.tables "widgets" ([] ++ []),
        widgetsDB1.store.audit ++
          [⟨"widgets", "DELETE", "42", prepareData widgetRow,
            "alice@example.com"⟩]⟩, none, none⟩ :=
  c2_delete_before_removal widgetsDB1 "widgets" "42" "alice@example.com"
    [("Id", .fstring "42")] [] widgetRow [] [] rfl (by decide) rfl rfl rfl
    rfl rfl rfl rfl (by decide) (by decide) rfl

end Audited
